import Mathlib

/-!
Shallow embedding of the gap-filling content agent
(src/config.py, src/db_manager.py, src/main.py).

The MongoDB collection is modelled as a list of stored documents, keeping the
fields the agent's queries touch (question text, topic, examSlug).  The
external similarity scorer, rapidfuzz's token-set ratio, is an opaque
parameter `score : String → String → Nat`; the external AI generator is
modelled by its outcome, an `Except String (List Q)` (a raised exception's
message or the parsed candidate list).  Wall-clock time is a `Nat` parameter.
-/

namespace Config

/- src/config.py constants. -/

def GAP_THRESHOLD : Nat := 10000

def BATCH_SIZE : Nat := 60

def SEED_SAMPLE_SIZE : Nat := 50

def FUZZY_MATCH_THRESHOLD : Nat := 45

def MAX_PARALLEL_EXAMS : Nat := 3

def BATCH_DELAY_SECONDS : Nat := 10

def ROUND_DELAY_SECONDS : Nat := 2

def NO_GAPS_DELAY_SECONDS : Nat := 300

def RETRY_DELAY_SECONDS : Nat := 30

def QUOTA_BACKOFF_MIN : Nat := 120

def QUOTA_BACKOFF_MAX : Nat := 300

def DEFAULT_STATUS : String := "pending_review"

def DEFAULT_VERSION : Nat := 0

end Config

/-- A document of the `examquestions` collection, restricted to the fields the
agent's queries read: the question text and the `topic` / `examSlug` metadata
(either may be absent on a stored document, hence `Option`). -/
structure StoredQ where
  question : String
  topic : Option String
  examSlug : Option String
deriving DecidableEq, Repr

namespace DBManager

/-- Python's str.strip(): drop whitespace from both ends. -/
def strip (s : String) : String :=
  String.mk (((s.data.dropWhile Char.isWhitespace).reverse.dropWhile Char.isWhitespace).reverse)

/-- DBManager.find_exact_match: `find_one({"question": question_text.strip()})`
over the whole collection (global scope), returning whether a document with
exactly the stripped text exists. -/
def find_exact_match (store : List StoredQ) (question_text : String) : Bool :=
  store.any fun d => d.question == strip question_text

/-- DBManager.get_questions_by_topic: `find({"topic": topic})`, projecting the
question texts.  Scoped by topic only, NOT by examSlug. -/
def get_questions_by_topic (store : List StoredQ) (topic : Option String) : List String :=
  (store.filter fun d => d.topic == topic).map fun d => d.question

/-- DBManager.get_questions_by_topic_and_exam: `find({"topic": topic,
"examSlug": exam_slug})`, projecting the question texts.  Defined in
src/db_manager.py (documented there as preventing cross-exam comparison) but
never called from src/main.py. -/
def get_questions_by_topic_and_exam (store : List StoredQ) (topic : Option String)
    (exam_slug : Option String) : List String :=
  (store.filter fun d => d.topic == topic && d.examSlug == exam_slug).map fun d => d.question

/-- The relation ordering `(examSlug, count)` pairs by count, used by the
`{"$sort": {"count": ASCENDING}}` stage of the gap-scan pipeline. -/
def countLE (p q : Option String × Nat) : Prop := p.2 ≤ q.2

instance : DecidableRel countLE := fun p q => Nat.decLe p.2 q.2

instance : IsTotal (Option String × Nat) countLE := ⟨fun p q => Nat.le_total p.2 q.2⟩

instance : IsTrans (Option String × Nat) countLE := ⟨fun _ _ _ h h2 => Nat.le_trans h h2⟩

/-- DBManager.get_low_count_exams: the aggregation pipeline
`$group` by examSlug with `$sum: 1`, `$match` count < threshold,
`$sort` by count ascending. -/
def get_low_count_exams (store : List StoredQ) (threshold : Nat) : List (Option String × Nat) :=
  let slugs := (store.map fun d => d.examSlug).dedup
  let pairs := slugs.map fun s => (s, (store.filter fun d => d.examSlug == s).length)
  let matched := pairs.filter fun p => p.2 < threshold
  List.insertionSort countLE matched

/-- The gap scan as a store-state transformer: an aggregation is a read, the
returned state is the input state (no write stage in the pipeline). -/
def get_low_count_exams_op (store : List StoredQ) (threshold : Nat) :
    List StoredQ × List (Option String × Nat) :=
  (store, get_low_count_exams store threshold)

/-- Whether an incoming document's unique key (its question text, the key the
duplicate machinery is built around) collides with a document already in the
store.  Models the store's unique-key rejection during a bulk write. -/
def hasKey (store : List StoredQ) (q : StoredQ) : Bool :=
  store.any fun d => d.question == q.question

/-- MongoDB `insert_many(..., ordered=False)` with a unique key on the
question text: every non-conflicting document is inserted even when an
earlier one conflicts; returns the new store, the number actually inserted,
and whether any write error occurred (in which case pymongo raises a
BulkWriteError whose message contains "writeErrors"). -/
def insert_many_unordered : List StoredQ → List StoredQ → List StoredQ × Nat × Bool
  | store, [] => (store, 0, false)
  | store, q :: rest =>
    if hasKey store q then
      let r := insert_many_unordered store rest
      (r.1, r.2.1, true)
    else
      let r := insert_many_unordered (store ++ [q]) rest
      (r.1, r.2.1 + 1, r.2.2)

/-- DBManager.bulk_insert_questions: empty batch returns 0; a clean
`insert_many` returns `len(result.inserted_ids)`; on a BulkWriteError (whose
message contains "writeErrors") the code recomputes a count as
`len(questions) - sum(1 for q in questions if not find_exact_match(q.question))`
and returns that. -/
def bulk_insert_questions (store : List StoredQ) (questions : List StoredQ) :
    List StoredQ × Nat :=
  if questions.isEmpty then (store, 0)
  else
    let r := insert_many_unordered store questions
    if r.2.2 then
      let success_count :=
        (questions.filter fun q => !(find_exact_match r.1 q.question)).length
      (r.1, questions.length - success_count)
    else (r.1, r.2.1)

end DBManager

/-- A seed document sampled from the collection (DBManager.get_seed_questions
projects `_id` away); only the metadata fields `_hydrate_question` reads are
kept.  `dict.get` on a missing key yields None, hence `Option`. -/
structure Seed where
  examId : Option String
  examSlug : Option String
  sec : Option String
  sectionName : Option String
  topic : Option String
  subtopic : Option String
deriving DecidableEq, Repr

/-- A candidate question dict as it flows through the agent: the payload the
provider produced plus the metadata and persistence-layer keys
`_hydrate_question` writes or pops.  An `Option` field set to `none` models
the key being absent from the dict. -/
structure Q where
  question : String
  options : List String
  correct : Nat
  qid : Option String
  tags : Option (List String)
  examId : Option String
  examSlug : Option String
  sec : Option String
  sectionName : Option String
  topic : Option String
  subtopic : Option String
  status : Option String
  v : Option Nat
  idField : Option String
  createdAt : Option String
  updatedAt : Option String
deriving DecidableEq, Repr

/-- The ContentAgent._stats dict. -/
structure Stats where
  total_generated : Nat
  total_inserted : Nat
  total_duplicates : Nat
  exact_duplicates : Nat
  fuzzy_duplicates : Nat
deriving DecidableEq, Repr

/-- The stats dict as initialised in ContentAgent.__init__. -/
def initStats : Stats := ⟨0, 0, 0, 0, 0⟩

/-- The decimal digit character for `d` (ASCII 48 + d). -/
def decChar (d : Nat) : Char := Char.ofNat (48 + d)

/-- Little-endian decimal digits of `n`, with explicit fuel (any fuel above
`n` is enough). -/
def decDigitsAux : Nat → Nat → List Char
  | 0, _ => []
  | fuel + 1, n => if n = 0 then [] else decChar (n % 10) :: decDigitsAux fuel (n / 10)

/-- The decimal rendering of a natural number, as Python's str() produces in
an f-string. -/
def decRepr (n : Nat) : List Char :=
  if n = 0 then ['0'] else (decDigitsAux (n + 1) n).reverse

/-- The qid synthesized by ContentAgent._hydrate_question:
`f"{original_qid}_{timestamp}_{self._question_counter}"`, as a character
list. -/
def mkQidChars (orig : List Char) (timestamp counter : Nat) : List Char :=
  orig ++ '_' :: (decRepr timestamp ++ '_' :: decRepr counter)

/-- The synthesized qid as a string. -/
def mkQid (orig : String) (timestamp counter : Nat) : String :=
  String.mk (mkQidChars orig.data timestamp counter)

namespace ContentAgent

/-- Python's `"429" in error_msg` substring test, on character lists:
whether `needle` occurs contiguously in `hay`. -/
def startsWithChars : List Char → List Char → Bool
  | [], _ => true
  | _ :: _, [] => false
  | a :: as, b :: bs => a == b && startsWithChars as bs

/-- Substring occurrence test (Python's `in` on strings). -/
def containsSeq (needle : List Char) : List Char → Bool
  | [] => startsWithChars needle []
  | c :: rest => startsWithChars needle (c :: rest) || containsSeq needle rest

/-- The `"429" in str(e)` test the agent uses to recognise a rate-limit
error. -/
def has429 (msg : String) : Bool :=
  containsSeq ("429".data) msg.data

/-- The duplicate class `_is_duplicate` reports ('exact' or 'fuzzy'). -/
inductive DupType where
  | exact : DupType
  | fuzzy : DupType
deriving DecidableEq, Repr

/-- ContentAgent._is_duplicate: exact lookup against the whole store first;
otherwise a loop over the reference corpus returning 'fuzzy' at the first
text whose score strictly exceeds the threshold (`List.any` short-circuits at
the first success exactly as the for-loop returns on it); otherwise unique
(`none`).  `score` stands for rapidfuzz's `fuzz.token_set_ratio`; the
threshold is `config.FUZZY_MATCH_THRESHOLD`, kept as a parameter. -/
def is_duplicate (score : String → String → Nat) (threshold : Nat)
    (store : List StoredQ) (existing_questions : List String)
    (question_text : String) : Option DupType :=
  if DBManager.find_exact_match store question_text then some DupType.exact
  else if existing_questions.any (fun e => threshold < score question_text e) then
    some DupType.fuzzy
  else none

/-- ContentAgent._hydrate_question: overwrites the metadata fields from the
seed, sets status and __v to the configured defaults, defaults tags to [],
increments the process-wide counter, synthesizes the qid from the original
qid (default "GEN"), the millisecond timestamp and the new counter value, and
pops _id / createdAt / updatedAt.  Returns the new counter with the hydrated
question. -/
def hydrate_question (counter : Nat) (timestamp : Nat) (question : Q) (seed : Seed) :
    Nat × Q :=
  let counter' := counter + 1
  let original_qid := question.qid.getD ("GEN")
  (counter',
   { question with
     examId := seed.examId
     examSlug := seed.examSlug
     sec := seed.sec
     sectionName := seed.sectionName
     topic := seed.topic
     subtopic := seed.subtopic
     status := some Config.DEFAULT_STATUS
     v := some Config.DEFAULT_VERSION
     tags := some (question.tags.getD [])
     qid := some (mkQid original_qid timestamp counter')
     idField := none
     createdAt := none
     updatedAt := none })

/-- Result of the per-batch filtering pass: the updated stats dict, the
updated question counter, and the hydrated survivors in order. -/
structure ProcOut where
  stats : Stats
  counter : Nat
  processed : List Q
deriving DecidableEq, Repr

/-- The `for i, q in enumerate(questions)` loop of
ContentAgent._process_questions: each candidate is classified by
`_is_duplicate`; an exact duplicate bumps exact_duplicates, a fuzzy one bumps
fuzzy_duplicates, and a unique candidate is hydrated and appended to the
processed list. -/
def process_loop (score : String → String → Nat) (threshold : Nat)
    (store : List StoredQ) (existing : List String) (seed : Seed) (timestamp : Nat) :
    List Q → Stats → Nat → List Q → ProcOut
  | [], stats, counter, acc => ⟨stats, counter, acc⟩
  | q :: rest, stats, counter, acc =>
    match is_duplicate score threshold store existing q.question with
    | some DupType.exact =>
      process_loop score threshold store existing seed timestamp rest
        { stats with exact_duplicates := stats.exact_duplicates + 1 } counter acc
    | some DupType.fuzzy =>
      process_loop score threshold store existing seed timestamp rest
        { stats with fuzzy_duplicates := stats.fuzzy_duplicates + 1 } counter acc
    | none =>
      let h := hydrate_question counter timestamp q seed
      process_loop score threshold store existing seed timestamp rest stats h.1 (acc ++ [h.2])

/-- ContentAgent._process_questions: fetches the reference corpus with
`get_questions_by_topic(topic)` — scoped by the seed's topic ONLY, not by
examSlug — runs the filtering loop, then adds
`len(questions) - len(processed)` to total_duplicates. -/
def process_questions (score : String → String → Nat) (threshold : Nat)
    (store : List StoredQ) (stats : Stats) (counter timestamp : Nat)
    (questions : List Q) (seed : Seed) : ProcOut :=
  let existing := DBManager.get_questions_by_topic store seed.topic
  let r := process_loop score threshold store existing seed timestamp questions stats counter []
  { r with
    stats :=
      { r.stats with
        total_duplicates :=
          r.stats.total_duplicates + (questions.length - r.processed.length) } }

/-- Projection of a hydrated question onto the stored-document fields the
queries read. -/
def toStored (q : Q) : StoredQ := ⟨q.question, q.topic, q.examSlug⟩

/-- Result of one worker call: the store after any insert, the stats dict,
and the question counter. -/
structure ExamOut where
  store : List StoredQ
  stats : Stats
  counter : Nat
deriving DecidableEq, Repr

/-- ContentAgent._process_exam for one exam, whole body.  The prelude
(before the try) reads the exam fields and fetches the seed sample with
db.get_seed_questions — a live store read whose outcome (the sampled
documents, or the message of a raised store error) is `seedsResult`; an
empty sample logs a warning and returns (a zero outcome); otherwise
`random.choice` picks one seed (the draw given by the index `pick`).
Nothing in this prelude is guarded: an error raised by the seed fetch
escapes the call whether or not it is a rate-limit signal.  The try block
then runs the external generate-and-parse step, given by its outcome `gen`
(the candidate list, or the message of the exception it raised), counts the
generated batch, filters and hydrates it, and bulk-inserts the survivors
(skipped when none survive), counting the insertions.  The try's handler
catches any exception whose message does not contain "429", logs it and
returns normally with nothing changed (a zero outcome); an exception
containing "429" is re-raised unmodified. -/
def process_exam (score : String → String → Nat) (threshold : Nat)
    (store : List StoredQ) (seedsResult : Except String (List Seed)) (pick : Nat)
    (gen : Except String (List Q)) (counter timestamp : Nat) (stats : Stats) :
    Except String ExamOut :=
  match seedsResult with
  | Except.error e => Except.error e
  | Except.ok seeds =>
    if seeds.isEmpty then Except.ok ⟨store, stats, counter⟩
    else
      let seed := seeds.getD (pick % seeds.length) ⟨none, none, none, none, none, none⟩
      match gen with
      | Except.error e =>
        if has429 e then Except.error e else Except.ok ⟨store, stats, counter⟩
      | Except.ok qs =>
        let stats1 : Stats :=
          { stats with total_generated := stats.total_generated + qs.length }
        let r := process_questions score threshold store stats1 counter timestamp qs seed
        if r.processed.isEmpty then Except.ok ⟨store, r.stats, r.counter⟩
        else
          let ins := DBManager.bulk_insert_questions store (r.processed.map toStored)
          Except.ok
            ⟨ins.1, { r.stats with total_inserted := r.stats.total_inserted + ins.2 },
             r.counter⟩

/-- The kind and parameters of the sleep the control loop performs next. -/
inductive SleepKind where
  | noGapsDelay : Nat → SleepKind
  | roundDelay : Nat → SleepKind
  | quotaBackoff : Nat → Nat → SleepKind
  | retryDelay : Nat → SleepKind
deriving DecidableEq, Repr

/-- ContentAgent._handle_error: a message containing "429" leads to a sleep
of `random.randint(QUOTA_BACKOFF_MIN, QUOTA_BACKOFF_MAX)` seconds (a uniform
draw from the inclusive window, recorded here by its bounds); any other
message leads to the fixed RETRY_DELAY_SECONDS sleep. -/
def handle_error (error_msg : String) : SleepKind :=
  if has429 error_msg then
    SleepKind.quotaBackoff Config.QUOTA_BACKOFF_MIN Config.QUOTA_BACKOFF_MAX
  else SleepKind.retryDelay Config.RETRY_DELAY_SECONDS

/-- The `for future in as_completed(futures)` loop of
ContentAgent._process_round: each worker outcome is awaited inside a
`try/except Exception` that logs the error and continues, so every worker
exception — the re-raised 429 included — is consumed here and becomes a log
line. -/
def futures_loop (outcomes : List (Except String Unit)) : List String :=
  outcomes.foldl
    (fun logs r =>
      match r with
      | Except.ok _ => logs
      | Except.error e => logs ++ ["Error processing: " ++ e])
    []

/-- ContentAgent._process_round, given the gap scan's result and the
outcomes of the dispatched workers: an empty scan sleeps for
NO_GAPS_DELAY_SECONDS; otherwise the futures loop consumes every worker
outcome (logging the failures) and the round ends with the
ROUND_DELAY_SECONDS sleep.  `_handle_error` is reached only by an exception
escaping the round body itself, which the consumed worker outcomes never
do. -/
def process_round (low_count_exams : List (Option String × Nat))
    (outcomes : List (Except String Unit)) : List String × SleepKind :=
  if low_count_exams.isEmpty then
    ([], SleepKind.noGapsDelay Config.NO_GAPS_DELAY_SECONDS)
  else
    (futures_loop outcomes, SleepKind.roundDelay Config.ROUND_DELAY_SECONDS)

end ContentAgent

/-- The decimal value of a digit character (inverse of decChar on digits). -/
def charDigit (c : Char) : Nat := c.toNat - 48

/-- Value of a little-endian digit-character list (decoder used to prove the
decimal rendering injective). -/
def charsToNat : List Char → Nat
  | [] => 0
  | c :: cs => charDigit c + 10 * charsToNat cs

/- Properties of the decimal rendering. -/

theorem charDigit_decChar (d : Nat) (h : d < 10) : charDigit (decChar d) = d := by
  interval_cases d <;> decide

theorem decChar_ne_underscore (d : Nat) (h : d < 10) : decChar d ≠ '_' := by
  interval_cases d <;> decide

theorem charsToNat_decDigitsAux :
    ∀ (fuel n : Nat), n < fuel → charsToNat (decDigitsAux fuel n) = n := by
  intro fuel
  induction fuel with
  | zero => intro n hn; omega
  | succ f ih =>
    intro n hn
    by_cases h0 : n = 0
    · simp [decDigitsAux, h0, charsToNat]
    · have hdiv : n / 10 < f := by
        have h1 : n / 10 < n := Nat.div_lt_self (Nat.pos_of_ne_zero h0) (by omega)
        omega
      have hmod : n % 10 < 10 := Nat.mod_lt n (by omega)
      simp only [decDigitsAux, h0, if_false, charsToNat, ih (n / 10) hdiv,
        charDigit_decChar (n % 10) hmod]
      omega

theorem decDigitsAux_ne_underscore :
    ∀ (fuel n : Nat), ∀ c ∈ decDigitsAux fuel n, c ≠ '_' := by
  intro fuel
  induction fuel with
  | zero => intro n c hc; simp [decDigitsAux] at hc
  | succ f ih =>
    intro n c hc
    by_cases h0 : n = 0
    · simp [decDigitsAux, h0] at hc
    · simp only [decDigitsAux, h0, if_false, List.mem_cons] at hc
      rcases hc with h | h
      · exact h ▸ decChar_ne_underscore (n % 10) (Nat.mod_lt n (by omega))
      · exact ih (n / 10) c h

theorem decRepr_ne_underscore (n : Nat) : ∀ c ∈ decRepr n, c ≠ '_' := by
  intro c hc
  unfold decRepr at hc
  by_cases h0 : n = 0
  · simp [h0] at hc
    simp [hc]
  · simp only [h0, if_false, List.mem_reverse] at hc
    exact decDigitsAux_ne_underscore (n + 1) n c hc

theorem decRepr_injective (m n : Nat) (h : decRepr m = decRepr n) : m = n := by
  unfold decRepr at h
  by_cases hm : m = 0 <;> by_cases hn : n = 0
  · omega
  · exfalso
    simp only [hm, if_true, hn, if_false] at h
    have hl : decDigitsAux (n + 1) n = ['0'] := by
      have := congrArg List.reverse h
      simpa using this.symm
    have hv := charsToNat_decDigitsAux (n + 1) n (by omega)
    rw [hl] at hv
    simp [charsToNat, charDigit] at hv
    omega
  · exfalso
    simp only [hm, if_false, hn, if_true] at h
    have hl : decDigitsAux (m + 1) m = ['0'] := by
      have := congrArg List.reverse h
      simpa using this
    have hv := charsToNat_decDigitsAux (m + 1) m (by omega)
    rw [hl] at hv
    simp [charsToNat, charDigit] at hv
    omega
  · simp only [hm, if_false, hn] at h
    have hl : decDigitsAux (m + 1) m = decDigitsAux (n + 1) n :=
      List.reverse_injective h
    have hvm := charsToNat_decDigitsAux (m + 1) m (by omega)
    have hvn := charsToNat_decDigitsAux (n + 1) n (by omega)
    rw [hl] at hvm
    omega

theorem takeWhile_append_underscore :
    ∀ (xs ys : List Char), (∀ c ∈ xs, c ≠ '_') →
      (xs ++ '_' :: ys).takeWhile (fun ch => ch != '_') = xs := by
  intro xs
  induction xs with
  | nil => intro ys _; simp [List.takeWhile_cons]
  | cons x xs ih =>
    intro ys h
    have hx : x ≠ '_' := h x (List.mem_cons_self x xs)
    have hxs : ∀ c ∈ xs, c ≠ '_' := fun c hc => h c (List.mem_cons_of_mem x hc)
    simp only [List.cons_append, List.takeWhile_cons, bne_iff_ne, ne_eq, hx,
      not_false_eq_true, if_true, ih ys hxs]

theorem mkQidChars_counter_inj (o1 o2 : List Char) (t1 t2 c1 c2 : Nat)
    (h : mkQidChars o1 t1 c1 = mkQidChars o2 t2 c2) : c1 = c2 := by
  have key : ∀ (o : List Char) (t c : Nat),
      ((mkQidChars o t c).reverse.takeWhile fun ch => ch != '_') = (decRepr c).reverse := by
    intro o t c
    have hsplit : mkQidChars o t c = (o ++ '_' :: decRepr t) ++ '_' :: decRepr c := by
      simp [mkQidChars, List.append_assoc]
    rw [hsplit, List.reverse_append, List.reverse_cons, List.append_assoc,
      List.singleton_append]
    exact takeWhile_append_underscore (decRepr c).reverse _
      (fun ch hc => decRepr_ne_underscore c ch (List.mem_reverse.mp hc))
  have h1 := key o1 t1 c1
  have h2 := key o2 t2 c2
  rw [h] at h1
  rw [h1] at h2
  exact decRepr_injective c1 c2 (List.reverse_injective h2)

theorem mkQid_counter_inj (o1 o2 : String) (t1 t2 c1 c2 : Nat)
    (h : mkQid o1 t1 c1 = mkQid o2 t2 c2) : c1 = c2 :=
  mkQidChars_counter_inj o1.data o2.data t1 t2 c1 c2 (congrArg String.data h)

/- Helper lemmas on the duplicate filter and the filtering loop. -/

theorem is_duplicate_isSome_mono (score : String → String → Nat) (t1 t2 : Nat)
    (h : t1 ≤ t2) (store : List StoredQ) (existing : List String) (text : String)
    (hd : (ContentAgent.is_duplicate score t2 store existing text).isSome = true) :
    (ContentAgent.is_duplicate score t1 store existing text).isSome = true := by
  unfold ContentAgent.is_duplicate at hd ⊢
  by_cases hf : DBManager.find_exact_match store text
  · simp [hf]
  · by_cases h2 : existing.any fun e => t2 < score text e
    · have h1 : existing.any (fun e => t1 < score text e) = true := by
        rw [List.any_eq_true] at h2 ⊢
        obtain ⟨e, he, hs⟩ := h2
        refine ⟨e, he, ?_⟩
        simp only [decide_eq_true_eq] at hs ⊢
        omega
      simp [hf, h1]
    · simp [hf, h2] at hd

theorem process_loop_accounting (score : String → String → Nat) (threshold : Nat)
    (store : List StoredQ) (existing : List String) (seed : Seed) (timestamp : Nat) :
    ∀ (qs : List Q) (stats : Stats) (counter : Nat) (acc : List Q),
      (ContentAgent.process_loop score threshold store existing seed timestamp qs stats counter
          acc).stats.exact_duplicates
        + (ContentAgent.process_loop score threshold store existing seed timestamp qs stats
            counter acc).stats.fuzzy_duplicates
        + (ContentAgent.process_loop score threshold store existing seed timestamp qs stats
            counter acc).processed.length
        = stats.exact_duplicates + stats.fuzzy_duplicates + acc.length + qs.length
      ∧ (ContentAgent.process_loop score threshold store existing seed timestamp qs stats counter
          acc).stats.total_duplicates = stats.total_duplicates
      ∧ (ContentAgent.process_loop score threshold store existing seed timestamp qs stats counter
          acc).stats.total_generated = stats.total_generated
      ∧ (ContentAgent.process_loop score threshold store existing seed timestamp qs stats counter
          acc).stats.total_inserted = stats.total_inserted
      ∧ stats.exact_duplicates
        ≤ (ContentAgent.process_loop score threshold store existing seed timestamp qs stats
            counter acc).stats.exact_duplicates
      ∧ stats.fuzzy_duplicates
        ≤ (ContentAgent.process_loop score threshold store existing seed timestamp qs stats
            counter acc).stats.fuzzy_duplicates
      ∧ acc.length
        ≤ (ContentAgent.process_loop score threshold store existing seed timestamp qs stats
            counter acc).processed.length := by
  intro qs
  induction qs with
  | nil =>
    intro stats counter acc
    simp [ContentAgent.process_loop]
  | cons q rest ih =>
    intro stats counter acc
    cases hdup : ContentAgent.is_duplicate score threshold store existing q.question with
    | none =>
      have := ih stats (ContentAgent.hydrate_question counter timestamp q seed).1
        (acc ++ [(ContentAgent.hydrate_question counter timestamp q seed).2])
      simp only [ContentAgent.process_loop, hdup] at *
      simp only [List.length_append, List.length_cons, List.length_nil] at *
      omega
    | some dt =>
      cases dt with
      | exact =>
        have := ih { stats with exact_duplicates := stats.exact_duplicates + 1 } counter acc
        simp only [ContentAgent.process_loop, hdup] at *
        simp only [List.length_cons] at *
        omega
      | fuzzy =>
        have := ih { stats with fuzzy_duplicates := stats.fuzzy_duplicates + 1 } counter acc
        simp only [ContentAgent.process_loop, hdup] at *
        simp only [List.length_cons] at *
        omega


/-- C4: Duplicate classification checks the exact match first and it takes
precedence: with an exact match of the trimmed candidate anywhere in the
store (global scope) the result is 'exact' regardless of any fuzzy score;
otherwise the result is 'fuzzy' exactly when some reference text in scope
scores strictly above the configured threshold (the loop short-circuits on
the first exceedance); otherwise 'unique' (`none`). -/
theorem C4_duplicate_classification (score : String → String → Nat) (threshold : Nat)
    (store : List StoredQ) (existing : List String) (text : String) :
    (ContentAgent.is_duplicate score threshold store existing text
        = some ContentAgent.DupType.exact
      ↔ DBManager.find_exact_match store text = true)
    ∧ (ContentAgent.is_duplicate score threshold store existing text
        = some ContentAgent.DupType.fuzzy
      ↔ DBManager.find_exact_match store text = false
        ∧ ∃ e ∈ existing, threshold < score text e)
    ∧ (ContentAgent.is_duplicate score threshold store existing text = none
      ↔ DBManager.find_exact_match store text = false
        ∧ ∀ e ∈ existing, score text e ≤ threshold) := by
  unfold ContentAgent.is_duplicate
  by_cases hf : DBManager.find_exact_match store text
  · simp [hf]
  · by_cases h2 : (existing.any fun e => threshold < score text e) = true
    · have hex : ∃ e ∈ existing, threshold < score text e := by
        rw [List.any_eq_true] at h2
        simpa using h2
      simp [hf, h2]
      exact hex
    · have hall : ∀ e ∈ existing, score text e ≤ threshold := by
        intro e he
        by_contra hc
        exact h2 (List.any_eq_true.mpr ⟨e, he, by simp; omega⟩)
      simp [hf, h2]
      exact hall

/-- C6: For a fixed scorer, store, reference corpus and candidate set, and
thresholds t1 ≤ t2 in [0,100], every candidate classified as a duplicate at
t2 is classified as a duplicate at t1, so raising the threshold never
increases the number of duplicates. -/
theorem C6_threshold_monotone (score : String → String → Nat)
    (store : List StoredQ) (existing : List String) (candidates : List String)
    (t1 t2 : Nat) (h1 : t1 ≤ t2) (hrange : t2 ≤ 100) :
    ((candidates.filter fun q =>
        (ContentAgent.is_duplicate score t2 store existing q).isSome)
      ⊆ candidates.filter fun q =>
        (ContentAgent.is_duplicate score t1 store existing q).isSome)
    ∧ (candidates.filter fun q =>
        (ContentAgent.is_duplicate score t2 store existing q).isSome).length
      ≤ (candidates.filter fun q =>
        (ContentAgent.is_duplicate score t1 store existing q).isSome).length := by
  have hsub :
      List.Sublist
        (candidates.filter fun q =>
          (ContentAgent.is_duplicate score t2 store existing q).isSome)
        (candidates.filter fun q =>
          (ContentAgent.is_duplicate score t1 store existing q).isSome) :=
    List.monotone_filter_right candidates
      (fun a ha => is_duplicate_isSome_mono score t1 t2 h1 store existing a ha)
  exact ⟨hsub.subset, hsub.length_le⟩

/-- C6 witness: a concrete instantiation (thresholds 40 ≤ 60, a corpus on
which a candidate is fuzzy at 40 but unique at 60). -/
theorem C6_threshold_monotone_witness :
    ((["cand"].filter fun q =>
        (ContentAgent.is_duplicate (fun _ _ => 50) 60 [] ["ref"] q).isSome)
      ⊆ ["cand"].filter fun q =>
        (ContentAgent.is_duplicate (fun _ _ => 50) 40 [] ["ref"] q).isSome)
    ∧ (["cand"].filter fun q =>
        (ContentAgent.is_duplicate (fun _ _ => 50) 60 [] ["ref"] q).isSome).length
      ≤ (["cand"].filter fun q =>
        (ContentAgent.is_duplicate (fun _ _ => 50) 40 [] ["ref"] q).isSome).length :=
  C6_threshold_monotone (fun _ _ => 50) [] ["ref"] ["cand"] 40 60 (by decide) (by decide)

/-- C7: The gap scan returns only groups whose aggregated count is strictly
below the threshold, the returned sequence is ordered by non-decreasing
count, and as a store operation it leaves the store unchanged (a pure
read). -/
theorem C7_gap_scan (store : List StoredQ) (threshold : Nat) :
    (∀ p ∈ DBManager.get_low_count_exams store threshold, p.2 < threshold)
    ∧ List.Sorted DBManager.countLE (DBManager.get_low_count_exams store threshold)
    ∧ (DBManager.get_low_count_exams_op store threshold).1 = store := by
  refine ⟨?_, ?_, rfl⟩
  · intro p hp
    simp only [DBManager.get_low_count_exams] at hp
    rw [List.mem_insertionSort, List.mem_filter] at hp
    exact of_decide_eq_true hp.2
  · exact List.sorted_insertionSort DBManager.countLE _

/-- C7 witness: on a concrete store, a concrete member of the scan has count
below the threshold. -/
theorem C7_gap_scan_witness :
    (some "b", 1) ∈ DBManager.get_low_count_exams
      [⟨"q1", none, some "a"⟩, ⟨"q2", none, some "a"⟩, ⟨"q3", none, some "b"⟩] 5
    ∧ 1 < 5 :=
  ⟨by decide,
   (C7_gap_scan [⟨"q1", none, some "a"⟩, ⟨"q2", none, some "a"⟩, ⟨"q3", none, some "b"⟩] 5).1
     (some "b", 1) (by decide)⟩

/-- C9: Hydration copies the group/section/topic metadata from the seed
regardless of what the provider returned, sets status and revision to the
configured fixed defaults, defaults tags to the empty list when absent, and
leaves the persistence-layer fields _id, createdAt and updatedAt absent from
the result. -/
theorem C9_hydrate_fields (counter timestamp : Nat) (q : Q) (seed : Seed) :
    ((ContentAgent.hydrate_question counter timestamp q seed).2.examId = seed.examId
      ∧ (ContentAgent.hydrate_question counter timestamp q seed).2.examSlug = seed.examSlug
      ∧ (ContentAgent.hydrate_question counter timestamp q seed).2.sec = seed.sec
      ∧ (ContentAgent.hydrate_question counter timestamp q seed).2.sectionName = seed.sectionName
      ∧ (ContentAgent.hydrate_question counter timestamp q seed).2.topic = seed.topic
      ∧ (ContentAgent.hydrate_question counter timestamp q seed).2.subtopic = seed.subtopic)
    ∧ ((ContentAgent.hydrate_question counter timestamp q seed).2.status
        = some Config.DEFAULT_STATUS
      ∧ (ContentAgent.hydrate_question counter timestamp q seed).2.v
        = some Config.DEFAULT_VERSION)
    ∧ (ContentAgent.hydrate_question counter timestamp q seed).2.tags
        = some (q.tags.getD [])
    ∧ (q.tags = none →
        (ContentAgent.hydrate_question counter timestamp q seed).2.tags = some [])
    ∧ ((ContentAgent.hydrate_question counter timestamp q seed).2.idField = none
      ∧ (ContentAgent.hydrate_question counter timestamp q seed).2.createdAt = none
      ∧ (ContentAgent.hydrate_question counter timestamp q seed).2.updatedAt = none) := by
  refine ⟨⟨rfl, rfl, rfl, rfl, rfl, rfl⟩, ⟨rfl, rfl⟩, rfl, ?_, rfl, rfl, rfl⟩
  intro h
  simp [ContentAgent.hydrate_question, h]

/-- C9 witness: on a candidate with no tags key, hydration yields the empty
tag list. -/
theorem C9_hydrate_fields_witness :
    (ContentAgent.hydrate_question 0 7
      ⟨"t", [], 0, none, none, none, none, none, none, none, none, none, none, none, none,
        none⟩
      ⟨none, none, none, none, none, none⟩).2.tags = some [] :=
  (C9_hydrate_fields 0 7
    ⟨"t", [], 0, none, none, none, none, none, none, none, none, none, none, none, none,
      none⟩
    ⟨none, none, none, none, none, none⟩).2.2.2.1 rfl

/-- C10: After a duplicate-filtering pass, if the accumulated statistics
satisfied total_duplicates = exact_duplicates + fuzzy_duplicates before the
pass, they satisfy it after it, and no counter decreases. -/
theorem C10_stats_invariant (score : String → String → Nat) (threshold : Nat)
    (store : List StoredQ) (stats : Stats) (counter timestamp : Nat)
    (questions : List Q) (seed : Seed)
    (h : stats.total_duplicates = stats.exact_duplicates + stats.fuzzy_duplicates) :
    (ContentAgent.process_questions score threshold store stats counter timestamp questions
        seed).stats.total_duplicates
      = (ContentAgent.process_questions score threshold store stats counter timestamp questions
          seed).stats.exact_duplicates
        + (ContentAgent.process_questions score threshold store stats counter timestamp
            questions seed).stats.fuzzy_duplicates
    ∧ stats.total_duplicates
      ≤ (ContentAgent.process_questions score threshold store stats counter timestamp questions
          seed).stats.total_duplicates
    ∧ stats.exact_duplicates
      ≤ (ContentAgent.process_questions score threshold store stats counter timestamp questions
          seed).stats.exact_duplicates
    ∧ stats.fuzzy_duplicates
      ≤ (ContentAgent.process_questions score threshold store stats counter timestamp questions
          seed).stats.fuzzy_duplicates := by
  have hacc := process_loop_accounting score threshold store
    (DBManager.get_questions_by_topic store seed.topic) seed timestamp questions stats counter []
  simp only [List.length_nil] at hacc
  simp only [ContentAgent.process_questions]
  obtain ⟨hsum, htd, _, _, hex, hfz, _⟩ := hacc
  refine ⟨?_, ?_, hex, hfz⟩ <;> omega

/-- C10 witness: starting from the initial all-zero statistics and an empty
batch, the invariant holds after the pass. -/
theorem C10_stats_invariant_witness :
    (ContentAgent.process_questions (fun _ _ => 0) 45 [] initStats 0 0 []
        ⟨none, none, none, none, none, none⟩).stats.total_duplicates
      = (ContentAgent.process_questions (fun _ _ => 0) 45 [] initStats 0 0 []
          ⟨none, none, none, none, none, none⟩).stats.exact_duplicates
        + (ContentAgent.process_questions (fun _ _ => 0) 45 [] initStats 0 0 []
            ⟨none, none, none, none, none, none⟩).stats.fuzzy_duplicates
    ∧ initStats.total_duplicates
      ≤ (ContentAgent.process_questions (fun _ _ => 0) 45 [] initStats 0 0 []
          ⟨none, none, none, none, none, none⟩).stats.total_duplicates
    ∧ initStats.exact_duplicates
      ≤ (ContentAgent.process_questions (fun _ _ => 0) 45 [] initStats 0 0 []
          ⟨none, none, none, none, none, none⟩).stats.exact_duplicates
    ∧ initStats.fuzzy_duplicates
      ≤ (ContentAgent.process_questions (fun _ _ => 0) 45 [] initStats 0 0 []
          ⟨none, none, none, none, none, none⟩).stats.fuzzy_duplicates :=
  C10_stats_invariant (fun _ _ => 0) 45 [] initStats 0 0 []
    ⟨none, none, none, none, none, none⟩ (by decide)

/-- C3 counterexample: a non-429 store error raised by the seed fetch —
inside _process_exam but before its try block — escapes the worker uncaught
instead of being converted to a zero outcome, so the claim as stated (any
non-rate-limit error raised inside the worker is caught inside the worker
and the call returns normally) is false of the program. -/
theorem C3_uncaught_prelude_counterexample :
    ContentAgent.process_exam (fun _ _ => 0) 45 []
      (Except.error ("connection refused")) 0 (Except.ok []) 0 0 initStats
      = Except.error ("connection refused")
    ∧ ContentAgent.has429 ("connection refused") = false :=
  ⟨rfl, by decide⟩

/-- C3 (amended): Inside the per-group worker, an error raised in the
try-guarded pipeline (generate, parse, filter, insert) whose message does
not contain "429" is caught and the call returns normally with a zero
outcome (store, stats and counter unchanged); one whose message contains
"429" is re-raised unmodified (given a non-empty seed sample, without which
the pipeline is never reached); but an error raised by the unguarded seed
fetch before the try escapes the worker uncaught, rate-limit or not. -/
theorem C3_worker_error_isolation (score : String → String → Nat) (threshold : Nat)
    (store : List StoredQ) (seeds : List Seed) (pick : Nat)
    (counter timestamp : Nat) (stats : Stats) (e efetch : String) :
    (ContentAgent.has429 e = false →
      ContentAgent.process_exam score threshold store (Except.ok seeds) pick
        (Except.error e) counter timestamp stats = Except.ok ⟨store, stats, counter⟩)
    ∧ (ContentAgent.has429 e = true → seeds ≠ [] →
      ContentAgent.process_exam score threshold store (Except.ok seeds) pick
        (Except.error e) counter timestamp stats = Except.error e)
    ∧ ContentAgent.process_exam score threshold store (Except.error efetch) pick
        (Except.error e) counter timestamp stats = Except.error efetch := by
  refine ⟨?_, ?_, rfl⟩
  · intro h
    cases seeds with
    | nil => simp [ContentAgent.process_exam]
    | cons s rest => simp [ContentAgent.process_exam, h]
  · intro h hne
    cases seeds with
    | nil => exact absurd rfl hne
    | cons s rest => simp [ContentAgent.process_exam, h]

/-- C3 witness: with a non-empty seed sample, a generic pipeline error is
converted to a zero outcome and a 429 pipeline error is re-raised. -/
theorem C3_worker_error_isolation_witness :
    ContentAgent.process_exam (fun _ _ => 0) 45 []
      (Except.ok [⟨none, none, none, none, none, none⟩]) 0
      (Except.error ("boom")) 0 0 initStats
      = Except.ok ⟨[], initStats, 0⟩
    ∧ ContentAgent.process_exam (fun _ _ => 0) 45 []
      (Except.ok [⟨none, none, none, none, none, none⟩]) 0
      (Except.error ("429 RESOURCE_EXHAUSTED")) 0 0 initStats
      = Except.error ("429 RESOURCE_EXHAUSTED") :=
  ⟨(C3_worker_error_isolation (fun _ _ => 0) 45 []
      [⟨none, none, none, none, none, none⟩] 0 0 0 initStats ("boom") ("x")).1 (by decide),
   (C3_worker_error_isolation (fun _ _ => 0) 45 []
      [⟨none, none, none, none, none, none⟩] 0 0 0 initStats ("429 RESOURCE_EXHAUSTED")
      ("x")).2.1 (by decide) (by decide)⟩

/-- C8: Hydration strictly increases the process-wide counter, and any two
hydrate calls whose counter states differ (as they must for two distinct
calls in one run, the counter being strictly increasing) synthesize distinct
qids — even with the same provider-assigned original qid and the same
millisecond timestamp. -/
theorem C8_qid_uniqueness (counter1 counter2 timestamp1 timestamp2 : Nat)
    (q1 q2 : Q) (s1 s2 : Seed)
    (h : (ContentAgent.hydrate_question counter1 timestamp1 q1 s1).1 ≤ counter2) :
    counter1 < (ContentAgent.hydrate_question counter1 timestamp1 q1 s1).1
    ∧ (ContentAgent.hydrate_question counter1 timestamp1 q1 s1).2.qid
      ≠ (ContentAgent.hydrate_question counter2 timestamp2 q2 s2).2.qid := by
  constructor
  · simp [ContentAgent.hydrate_question]
  · intro heq
    simp only [ContentAgent.hydrate_question, Option.some.injEq] at heq h
    have := mkQid_counter_inj _ _ _ _ _ _ heq
    omega

/-- C8 witness: two consecutive hydrations of the same candidate against the
same seed in the same millisecond produce distinct qids. -/
theorem C8_qid_uniqueness_witness :
    0 < (ContentAgent.hydrate_question 0 7
      ⟨"t", [], 0, some "L1", none, none, none, none, none, none, none, none, none, none,
        none, none⟩
      ⟨none, none, none, none, none, none⟩).1
    ∧ (ContentAgent.hydrate_question 0 7
      ⟨"t", [], 0, some "L1", none, none, none, none, none, none, none, none, none, none,
        none, none⟩
      ⟨none, none, none, none, none, none⟩).2.qid
      ≠ (ContentAgent.hydrate_question 1 7
      ⟨"t", [], 0, some "L1", none, none, none, none, none, none, none, none, none, none,
        none, none⟩
      ⟨none, none, none, none, none, none⟩).2.qid :=
  C8_qid_uniqueness 0 1 7 7
    ⟨"t", [], 0, some "L1", none, none, none, none, none, none, none, none, none, none,
      none, none⟩
    ⟨"t", [], 0, some "L1", none, none, none, none, none, none, none, none, none, none,
      none, none⟩
    ⟨none, none, none, none, none, none⟩ ⟨none, none, none, none, none, none⟩ (by decide)

/-- C1 counterexample: _process_questions fetches its fuzzy reference corpus
with get_questions_by_topic, scoped by topic only.  With a store holding one
question of the same topic but a DIFFERENT examSlug than the seed's group,
that cross-group text enters the corpus (whereas the topic-and-exam scoped
query returns nothing) and makes the candidate a fuzzy duplicate. -/
theorem C1_cross_group_corpus_counterexample :
    DBManager.get_questions_by_topic [⟨"old question", some "math", some "examB"⟩]
        (some "math") = ["old question"]
    ∧ DBManager.get_questions_by_topic_and_exam
        [⟨"old question", some "math", some "examB"⟩] (some "math") (some "examA") = []
    ∧ (ContentAgent.process_questions (fun _ _ => 100) 45
        [⟨"old question", some "math", some "examB"⟩] initStats 0 0
        [⟨"new question", [], 0, none, none, none, none, none, none, none, none, none, none,
          none, none, none⟩]
        ⟨some "id1", some "examA", none, none, some "math", none⟩).stats.fuzzy_duplicates = 1
    ∧ (ContentAgent.process_questions (fun _ _ => 100) 45
        [⟨"old question", some "math", some "examB"⟩] initStats 0 0
        [⟨"new question", [], 0, none, none, none, none, none, none, none, none, none, none,
          none, none, none⟩]
        ⟨some "id1", some "examA", none, none, some "math", none⟩).processed.length = 0 := by
  decide

/-- C2 counterexample: a worker that raises a 429 has its exception consumed
by the try/except inside the futures loop of _process_round, so the round
ends with the plain ROUND_DELAY_SECONDS sleep, not the quota backoff that
_handle_error would produce for the same message. -/
theorem C2_rate_limit_swallowed_counterexample :
    ContentAgent.process_exam (fun _ _ => 0) 45 []
      (Except.ok [⟨none, none, none, none, none, none⟩]) 0
      (Except.error ("429 quota exceeded")) 0 0 initStats
      = Except.error ("429 quota exceeded")
    ∧ ContentAgent.process_round [(some "examA", 3)] [Except.error ("429 quota exceeded")]
      = (["Error processing: 429 quota exceeded"],
         ContentAgent.SleepKind.roundDelay Config.ROUND_DELAY_SECONDS)
    ∧ ContentAgent.handle_error ("429 quota exceeded")
      = ContentAgent.SleepKind.quotaBackoff Config.QUOTA_BACKOFF_MIN Config.QUOTA_BACKOFF_MAX
    ∧ ContentAgent.SleepKind.roundDelay Config.ROUND_DELAY_SECONDS
      ≠ ContentAgent.SleepKind.quotaBackoff Config.QUOTA_BACKOFF_MIN Config.QUOTA_BACKOFF_MAX :=
  ⟨rfl, by decide, by decide, by decide⟩

/-- C5 counterexample: on a batch [A, B] where A's key collides with a stored
document, the unordered insert does insert B (partial success, 1 actually
inserted), but bulk_insert_questions reports 2: the recovery path counts the
batch questions whose text is found in the store afterwards, and the
conflicting A is found too (its text equals the stored duplicate's).  The
empty batch returns 0 as specified. -/
theorem C5_bulk_insert_count_counterexample :
    DBManager.insert_many_unordered [⟨"A", none, none⟩]
        [⟨"A", none, none⟩, ⟨"B", none, none⟩]
      = ([⟨"A", none, none⟩, ⟨"B", none, none⟩], 1, true)
    ∧ DBManager.bulk_insert_questions [⟨"A", none, none⟩]
        [⟨"A", none, none⟩, ⟨"B", none, none⟩]
      = ([⟨"A", none, none⟩, ⟨"B", none, none⟩], 2)
    ∧ (2 : Nat) ≠ 1
    ∧ DBManager.bulk_insert_questions [⟨"A", none, none⟩] [] = ([⟨"A", none, none⟩], 0) := by
  decide
